import Mathlib

/-!
Shallow embedding of the klox split-flap clock core (src/src/clock/mod.rs).

Rust `f64` turn fractions are modelled as exact rationals (`ℚ`), and
`std::time::Duration` values as natural numbers of nanoseconds, so that
`Duration::as_secs` is division by 10^9 and `Duration::from_millis m`
is `m * 10^6` nanoseconds.  `Option` models Rust `Option`, and the
`unreachable!()` arm of `Digit::from` is modelled as the `none` result of
an `Option`-valued lookup.
-/

/-- One clocklet: two hands, each a fraction of a full turn
(`Clocklet` in the source, fields `hour_hand_turns`, `minute_hand_turns`). -/
@[ext]
structure Clocklet where
  hourHandTurns : ℚ
  minuteHandTurns : ℚ
deriving DecidableEq, Repr

/-- `impl Add for Clocklet`: component-wise addition. -/
def Clocklet.add (a b : Clocklet) : Clocklet :=
  ⟨a.hourHandTurns + b.hourHandTurns, a.minuteHandTurns + b.minuteHandTurns⟩

/-- `impl Sub for Clocklet`: component-wise subtraction. -/
def Clocklet.sub (a b : Clocklet) : Clocklet :=
  ⟨a.hourHandTurns - b.hourHandTurns, a.minuteHandTurns - b.minuteHandTurns⟩

/-- `impl Mul<f64> for Clocklet`: scale both hands. -/
def Clocklet.mulQ (a : Clocklet) (r : ℚ) : Clocklet :=
  ⟨a.hourHandTurns * r, a.minuteHandTurns * r⟩

/-- `impl SubAssign<f64> for Clocklet`: subtract a scalar from both hands. -/
def Clocklet.subQ (a : Clocklet) (r : ℚ) : Clocklet :=
  ⟨a.hourHandTurns - r, a.minuteHandTurns - r⟩

/-- `Clocklet::from_turns`. -/
def Clocklet.fromTurns (h m : ℚ) : Clocklet := ⟨h, m⟩

def Clocklet.BL : Clocklet := Clocklet.fromTurns 0 (1/4)

def Clocklet.BLANK : Clocklet := Clocklet.fromTurns (5/8) (5/8)

def Clocklet.BR : Clocklet := Clocklet.fromTurns 0 (3/4)

def Clocklet.HOR : Clocklet := Clocklet.fromTurns (1/4) (3/4)

def Clocklet.L : Clocklet := Clocklet.fromTurns (3/4) (3/4)

def Clocklet.R : Clocklet := Clocklet.fromTurns (1/4) (1/4)

def Clocklet.TL : Clocklet := Clocklet.fromTurns (1/2) (1/4)

def Clocklet.TR : Clocklet := Clocklet.fromTurns (1/2) (3/4)

def Clocklet.V : Clocklet := Clocklet.fromTurns 0 (1/2)

def Clocklet.U : Clocklet := Clocklet.fromTurns 0 0

def Clocklet.D : Clocklet := Clocklet.fromTurns (1/2) (1/2)

/-- `struct Digit([Clocklet; 6])`: six clocklet presets, flattened
column-major over a 2-column × 3-row half-pair. -/
def Digit : Type := Fin 6 → Clocklet

def Digit.ZERO : Digit :=
  ![Clocklet.TL, Clocklet.V, Clocklet.BL, Clocklet.TR, Clocklet.V, Clocklet.BR]

def Digit.ONE : Digit :=
  ![Clocklet.BLANK, Clocklet.BLANK, Clocklet.BLANK, Clocklet.D, Clocklet.V, Clocklet.U]

def Digit.TWO : Digit :=
  ![Clocklet.R, Clocklet.TL, Clocklet.BL, Clocklet.TR, Clocklet.BR, Clocklet.L]

def Digit.THREE : Digit :=
  ![Clocklet.R, Clocklet.R, Clocklet.R, Clocklet.TR, Clocklet.BR, Clocklet.BR]

def Digit.FOUR : Digit :=
  ![Clocklet.D, Clocklet.BL, Clocklet.BLANK, Clocklet.D, Clocklet.BR, Clocklet.U]

def Digit.FIVE : Digit :=
  ![Clocklet.TL, Clocklet.BL, Clocklet.R, Clocklet.L, Clocklet.TR, Clocklet.BR]

def Digit.SIX : Digit :=
  ![Clocklet.TL, Clocklet.V, Clocklet.BL, Clocklet.L, Clocklet.TR, Clocklet.BR]

def Digit.SEVEN : Digit :=
  ![Clocklet.R, Clocklet.BLANK, Clocklet.BLANK, Clocklet.TR, Clocklet.V, Clocklet.U]

def Digit.EIGHT : Digit :=
  ![Clocklet.TL, Clocklet.BL, Clocklet.BL, Clocklet.TR, Clocklet.BR, Clocklet.BR]

def Digit.NINE : Digit :=
  ![Clocklet.TL, Clocklet.BL, Clocklet.R, Clocklet.TR, Clocklet.BR, Clocklet.BR]

def Digit.BLANKD : Digit := fun _ => Clocklet.BLANK

/-- The ten-armed `match` of `impl From<u64> for Digit`, applied to an
already-reduced discriminant.  The wildcard arm is the source's
`unreachable!()` panic, modelled as `none`. -/
def digitTable (m : ℕ) : Option Digit :=
  match m with
  | 0 => some Digit.ZERO
  | 1 => some Digit.ONE
  | 2 => some Digit.TWO
  | 3 => some Digit.THREE
  | 4 => some Digit.FOUR
  | 5 => some Digit.FIVE
  | 6 => some Digit.SIX
  | 7 => some Digit.SEVEN
  | 8 => some Digit.EIGHT
  | 9 => some Digit.NINE
  | _ => none

/-- `Digit::from(value)` = `match value % 10 { ... }`
(`impl From<u64> for Digit`, src/src/clock/mod.rs lines 100-116). -/
def digitFromOpt (v : ℕ) : Option Digit := digitTable (v % 10)

/-- Total wrapper used where the source calls `.into()` on a `u64`;
the fallback is never reached (the `unreachable!()` arm). -/
def digitFrom (v : ℕ) : Digit := (digitFromOpt v).getD Digit.BLANKD

/-- `enum Lifespan`.  Durations and instants are nanoseconds. -/
inductive Lifespan where
  | pending (duration : ℕ)
  | active (start current deadline : ℕ)
  | finished
deriving DecidableEq, Repr

/-- `Lifespan::from_millis`. -/
def Lifespan.fromMillis (millis : ℕ) : Lifespan :=
  Lifespan.pending (millis * 1000000)

/-- `Lifespan::update(self, update: &Update)`, with `now` standing for
`update.since_start`.  A pending lifespan activates (the early `return`),
an active one finishes exactly when `deadline < now`, and `Finished` is
terminal. -/
def Lifespan.update (l : Lifespan) (now : ℕ) : Lifespan :=
  match l with
  | .pending d => .active now now (now + d)
  | .active s _ dl => if dl < now then .finished else .active s now dl
  | .finished => .finished

/-- The 8-column × 3-row board of clocklets (`[[Clocklet; 3]; 8]`). -/
def Grid : Type := Fin 8 → Fin 3 → Clocklet

/-- `[[f64; 3]; 8]`, the one-shot extra-turns perturbation. -/
def ExtraTurns : Type := Fin 8 → Fin 3 → ℚ

/-- A constant grid used as a concrete fixture in closed statements. -/
def zeroGrid : Grid := fun _ _ => Clocklet.fromTurns 0 0

/-- `struct ClockTarget`. -/
structure ClockTarget where
  clocklets : Grid
  extraTurns : Option ExtraTurns
  lifespan : Lifespan

/-- `Duration::as_secs_f64` on a nanosecond count. -/
def secsF (n : ℕ) : ℚ := (n : ℚ) / 1000000000

/-- `ClockTarget::progress`. -/
def ClockTarget.progress (t : ClockTarget) : ℚ :=
  match t.lifespan with
  | .finished => 1
  | .pending _ => 0
  | .active s c dl =>
      let total := secsF (dl - s)
      if total = 0 then 1 else secsF (c - s) / total

/-- `ClockTarget::update`: advance the lifespan and take the one-shot
extra turns, returning the updated target and the taken perturbation. -/
def ClockTarget.update (t : ClockTarget) (now : ℕ) :
    ClockTarget × Option ExtraTurns :=
  (⟨t.clocklets, none, t.lifespan.update now⟩, t.extraTurns)

/-- `ClockTarget::is_finished`. -/
def ClockTarget.isFinished (t : ClockTarget) : Bool :=
  match t.lifespan with
  | .finished => true
  | _ => false

/-- `ClockTarget::set_digit(digit, position)`: overwrite the two columns
`[(position % 4) * 2, (position % 4) * 2 + 2)` with the digit's six
presets, flattened column-major (column `p` rows 0-2 take presets 0-2,
column `p+1` rows 0-2 take presets 3-5). -/
def ClockTarget.setDigit (t : ClockTarget) (digit : Digit) (position : ℕ) :
    ClockTarget :=
  { t with clocklets := fun i j =>
      if i.val = (position % 4) * 2 then digit ⟨j.val, by omega⟩
      else if i.val = (position % 4) * 2 + 1 then digit ⟨3 + j.val, by omega⟩
      else t.clocklets i j }

/-- `ClockTarget::from_time(time, lifespan)`.  The source starts from
`Self::default()`, whose grid is random; since every cell is overwritten
by the four `set_digit` calls, the initial grid is passed explicitly as
`init`.  `time` is nanoseconds since the unix epoch. -/
def ClockTarget.fromTime (init : Grid) (time : ℕ) (lifespan : Lifespan) :
    ClockTarget :=
  let t := time / 1000000000 / 60
  let mins := t % 60
  let hours := (t / 60) % 24
  (((({ clocklets := init, extraTurns := none,
        lifespan := lifespan } : ClockTarget).setDigit
      (digitFrom mins) 3).setDigit
      (digitFrom (mins / 10)) 2).setDigit
      (digitFrom hours) 1).setDigit
      (digitFrom (hours / 10)) 0

/-- `ClockTarget::random_millis` (grid left as a parameter for the random
`Default` clocklets; `extra_turns` is the constant 3.0 perturbation). -/
def ClockTarget.randomMillis (init : Grid) (millis : ℕ) : ClockTarget :=
  { clocklets := init
    extraTurns := some fun _ _ => 3
    lifespan := Lifespan.fromMillis millis }

/-- `struct Clock`: the committed grid plus the FIFO target queue
(`VecDeque`, front = list head).  The render-only `padding` field is
omitted. -/
structure Clock where
  clocklets : Grid
  targets : List ClockTarget

/-- `Clock::push_target`: enqueue at the back. -/
def Clock.pushTarget (c : Clock) (target : ClockTarget) : Clock :=
  { c with targets := c.targets ++ [target] }

/-- The per-indicator straight lerp `a + (b - a) * progress` used by
`Clock::lerp`. -/
def gridLerp (a b : Grid) (p : ℚ) : Grid := fun i j =>
  (a i j).add (((b i j).sub (a i j)).mulQ p)

/-- `Clock::lerp(&self, target)`. -/
def Clock.lerp (c : Clock) (target : ClockTarget) : Grid :=
  gridLerp c.clocklets target.clocklets target.progress

/-- `Clock::interpolated_clocklets` (the spec's
`current_grid_for_render`). -/
def Clock.interpolatedClocklets (c : Clock) : Grid :=
  match c.targets.head? with
  | some t => c.lerp t
  | none => c.clocklets

/-- The `if let Some(ClockTarget { lifespan: Lifespan::Active { .. }, .. })`
pattern of `Clock::clobber_targets`. -/
def Clock.frontActive (c : Clock) : Bool :=
  match c.targets.head? with
  | some t =>
      match t.lifespan with
      | .active _ _ _ => true
      | _ => false
  | none => false

/-- `Clock::clobber_targets` (the spec's `replace_all`). -/
def Clock.clobberTargets (c : Clock) (target : ClockTarget) : Clock :=
  { clocklets := if c.frontActive then c.interpolatedClocklets else c.clocklets
    targets := [target] }

/-- `impl SubAssign<[[f64; 3]; 8]> for Clock`: subtract the extra-turns
scalar from both hands of every committed clocklet. -/
def Grid.subExtra (g : Grid) (e : ExtraTurns) : Grid := fun i j =>
  (g i j).subQ (e i j)

/-- Apply an optional taken perturbation to the committed grid as the
`if let Some(extra_turns) = extra_turns { *self -= extra_turns }` body. -/
def Grid.applyExtra (g : Grid) (e : Option ExtraTurns) : Grid :=
  match e with
  | some x => g.subExtra x
  | none => g

/-- The `while let Some(target) = self.targets.pop_front()` loop of
`Clock::update`: a finished head commits its grid and draining
continues; an unfinished head applies its one-shot extra turns to the
committed grid, is pushed back to the front, and the loop breaks. -/
def tickAux (now : ℕ) (g : Grid) : List ClockTarget → Grid × List ClockTarget
  | [] => (g, [])
  | t :: rest =>
      let u := t.update now
      if u.1.isFinished then tickAux now u.1.clocklets rest
      else (g.applyExtra u.2, u.1 :: rest)

/-- `Clock::update` from `impl Drawable for Clock` (the spec's `tick`). -/
def Clock.update (c : Clock) (now : ℕ) : Clock :=
  let p := tickAux now c.clocklets c.targets
  { clocklets := p.1, targets := p.2 }

/-- The targets popped (retired) by one `Clock::update` call, in pop
order: the maximal finished prefix after updating. -/
def tickRetired (now : ℕ) : List ClockTarget → List ClockTarget
  | [] => []
  | t :: rest =>
      let u := t.update now
      if u.1.isFinished then u.1 :: tickRetired now rest else []

/-- Iterate `Clock::update` over a schedule of `now` values, starting at
schedule index `i`. -/
def runFrom (nows : ℕ → ℕ) (i : ℕ) (c : Clock) : ℕ → Clock
  | 0 => c
  | k + 1 => runFrom nows (i + 1) (c.update (nows i)) k

/-- The concatenated retirement trace of `runFrom`. -/
def traceFrom (nows : ℕ → ℕ) (i : ℕ) (c : Clock) : ℕ → List ClockTarget
  | 0 => []
  | k + 1 =>
      tickRetired (nows i) c.targets ++
        traceFrom nows (i + 1) (c.update (nows i)) k

/-- `struct TriggerTime(bool)` together with its constants:
`LEAD_TIME_SECONDS = 5`, `TRIGGER_TIME_SECONDS = 55`.
`TriggerTime::trigger` samples the wall clock; here `now` (nanoseconds
since the unix epoch) is passed in, and `init` stands for the random
default grid consumed by `ClockTarget::from_time`.  Returns the new
armed flag and the optional emitted target. -/
def TriggerTime.trigger (init : Grid) (armed : Bool) (now : ℕ) :
    Bool × Option ClockTarget :=
  let seconds := (now / 1000000000) % 60
  if armed = true ∧ seconds < 55 then (false, none)
  else if armed = false ∧ 55 ≤ seconds then
    (true, some (ClockTarget.fromTime init (now + 5 * 1000000000)
      (Lifespan.fromMillis (5 * 1000))))
  else (armed, none)

/-- Fold `TriggerTime::trigger` over a list of poll instants, returning
the final armed flag and the number of emitted targets. -/
def triggerRun (init : Grid) (armed : Bool) : List ℕ → Bool × ℕ
  | [] => (armed, 0)
  | n :: ns =>
      let r := TriggerTime.trigger init armed n
      let rest := triggerRun init r.1 ns
      (rest.1, (match r.2 with | some _ => 1 | none => 0) + rest.2)

/-- Read back the six clocklets of glyph slot `s` (columns
`(s % 4) * 2` and `(s % 4) * 2 + 1`), flattened column-major, inverting
the write order of `ClockTarget::set_digit`. -/
def slotGlyph (g : Grid) (s : ℕ) : Digit := fun k =>
  if h : k.val < 3 then g ⟨(s % 4) * 2, by omega⟩ ⟨k.val, h⟩
  else g ⟨(s % 4) * 2 + 1, by omega⟩ ⟨k.val - 3, by omega⟩

/-- Concrete fixture target for closed statements. -/
def tFix : ClockTarget := ClockTarget.mk zeroGrid none (Lifespan.pending 0)

theorem digitTable_isSome {m : ℕ} (h : m < 10) : (digitTable m).isSome = true := by
  interval_cases m <;> rfl

theorem digitFromOpt_mod (v : ℕ) : digitFromOpt v = digitFromOpt (v % 10) := by
  have h : v % 10 % 10 = v % 10 := by omega
  unfold digitFromOpt
  rw [h]

theorem digitFromOpt_isSome (v : ℕ) : (digitFromOpt v).isSome = true := by
  have h : v % 10 < 10 := Nat.mod_lt _ (by norm_num)
  exact digitTable_isSome h

/-- C1 counterexample: the value 10 lies outside `0..=9`, yet the glyph
lookup succeeds (returning the glyph of `10 % 10 = 0`) instead of being
an error. -/
theorem digit_lookup_succeeds_at_ten :
    9 < 10 ∧ digitFromOpt 10 = some Digit.ZERO := ⟨by norm_num, rfl⟩

/-- C1 (amended): `Digit::from` reduces its argument modulo 10 before the
ten-armed match, so for every value outside `0..=9` the lookup still
succeeds, agreeing with the lookup of `value % 10`; no input is an
error. -/
theorem digit_lookup_total_beyond_range (v : ℕ) (h : 10 ≤ v) :
    digitFromOpt v ≠ none ∧ digitFromOpt v = digitFromOpt (v % 10) := by
  refine ⟨?_, digitFromOpt_mod v⟩
  intro hc
  have hs := digitFromOpt_isSome v
  rw [hc] at hs
  exact Bool.noConfusion hs

/-- Witness for C1's amended theorem at the out-of-range input 12. -/
theorem digit_lookup_total_beyond_range_witness :
    10 ≤ 12 ∧ digitFromOpt 12 ≠ none ∧ digitFromOpt 12 = digitFromOpt (12 % 10) :=
  ⟨by norm_num, (digit_lookup_total_beyond_range 12 (by norm_num)).1,
    (digit_lookup_total_beyond_range 12 (by norm_num)).2⟩

/-- C10: over every unsigned 64-bit value, `Digit::from` is total and
never reaches the `unreachable!()` arm, and its result agrees with the
result at `value % 10`. -/
theorem digit_from_u64_total_mod_ten (v : ℕ) (h : v < 2 ^ 64) :
    (digitFromOpt v).isSome = true ∧ digitFromOpt v = digitFromOpt (v % 10) :=
  ⟨digitFromOpt_isSome v, digitFromOpt_mod v⟩

/-- Witness for C10 at the largest 64-bit value. -/
theorem digit_from_u64_total_mod_ten_witness :
    18446744073709551615 < 2 ^ 64 ∧
    (digitFromOpt 18446744073709551615).isSome = true ∧
    digitFromOpt 18446744073709551615 = digitFromOpt (18446744073709551615 % 10) :=
  ⟨by norm_num, (digit_from_u64_total_mod_ten 18446744073709551615 (by norm_num)).1,
    (digit_from_u64_total_mod_ten 18446744073709551615 (by norm_num)).2⟩

/-- C6: the board's per-indicator straight lerp restores the committed
grid at factor 0 and reaches the target grid at factor 1, on both hand
values of every indicator. -/
theorem grid_lerp_endpoints (a b : Grid) :
    gridLerp a b 0 = a ∧ gridLerp a b 1 = b := by
  constructor <;> funext i j <;> ext <;>
    simp [gridLerp, Clocklet.add, Clocklet.sub, Clocklet.mulQ] <;> ring

/-- C5: `clobber_targets` always leaves the queue holding exactly the
new target; when the front target is Active it first commits the
interpolated grid (`interpolated_clocklets`, the grid the renderer would
have produced just before the call), and otherwise it leaves the
committed grid unchanged. -/
theorem clobber_targets_continuity (c : Clock) (t : ClockTarget) :
    (c.clobberTargets t).targets = [t] ∧
    (c.frontActive = true →
      (c.clobberTargets t).clocklets = c.interpolatedClocklets) ∧
    (c.frontActive = false → (c.clobberTargets t).clocklets = c.clocklets) := by
  refine ⟨rfl, ?_, ?_⟩ <;> intro h <;> simp [Clock.clobberTargets, h]

/-- Concrete clock with an Active front target, fixture for witnesses. -/
def cActive : Clock :=
  Clock.mk zeroGrid [ClockTarget.mk zeroGrid none (Lifespan.active 0 0 5)]

/-- Witness for C5 on a clock whose front target is Active. -/
theorem clobber_targets_continuity_witness :
    cActive.frontActive = true ∧
    (cActive.clobberTargets tFix).targets = [tFix] ∧
    (cActive.clobberTargets tFix).clocklets = cActive.interpolatedClocklets :=
  ⟨rfl, (clobber_targets_continuity cActive tFix).1,
    (clobber_targets_continuity cActive tFix).2.1 rfl⟩

/-- C9: writing a glyph into slot `s` changes only the six cells of the
two columns `(s % 4) * 2` and `(s % 4) * 2 + 1` (column-major: the first
column takes presets 0-2, the second presets 3-5), leaving every other
cell and the target's `extra_turns` and `lifespan` untouched. -/
theorem set_digit_frame_effect (t : ClockTarget) (d : Digit) (s : ℕ) (j : Fin 3) :
    (t.setDigit d s).extraTurns = t.extraTurns ∧
    (t.setDigit d s).lifespan = t.lifespan ∧
    (∀ i : Fin 8, i.val ≠ (s % 4) * 2 → i.val ≠ (s % 4) * 2 + 1 →
      (t.setDigit d s).clocklets i j = t.clocklets i j) ∧
    (t.setDigit d s).clocklets ⟨(s % 4) * 2, by omega⟩ j = d ⟨j.val, by omega⟩ ∧
    (t.setDigit d s).clocklets ⟨(s % 4) * 2 + 1, by omega⟩ j = d ⟨3 + j.val, by omega⟩ := by
  have hne : (s % 4) * 2 + 1 ≠ (s % 4) * 2 := by omega
  refine ⟨rfl, rfl, ?_, ?_, ?_⟩
  · intro i h1 h2
    simp [ClockTarget.setDigit, h1, h2]
  · simp [ClockTarget.setDigit]
  · simp [ClockTarget.setDigit, hne]

/-- Witness for C9 at slot 5 (exercising the `% 4` wrap to columns 2-3),
row 0, with untouched column 0. -/
theorem set_digit_frame_effect_witness :
    ((0 : ℕ) ≠ (5 % 4) * 2 ∧ (0 : ℕ) ≠ (5 % 4) * 2 + 1) ∧
    (tFix.setDigit Digit.FIVE 5).extraTurns = tFix.extraTurns ∧
    (tFix.setDigit Digit.FIVE 5).lifespan = tFix.lifespan ∧
    (tFix.setDigit Digit.FIVE 5).clocklets ⟨0, by norm_num⟩ 0 =
      tFix.clocklets ⟨0, by norm_num⟩ 0 ∧
    (tFix.setDigit Digit.FIVE 5).clocklets ⟨(5 % 4) * 2, by norm_num⟩ 0 =
      Digit.FIVE ⟨0, by norm_num⟩ ∧
    (tFix.setDigit Digit.FIVE 5).clocklets ⟨(5 % 4) * 2 + 1, by norm_num⟩ 0 =
      Digit.FIVE ⟨3, by norm_num⟩ :=
  ⟨⟨by norm_num, by norm_num⟩,
    (set_digit_frame_effect tFix Digit.FIVE 5 0).1,
    (set_digit_frame_effect tFix Digit.FIVE 5 0).2.1,
    (set_digit_frame_effect tFix Digit.FIVE 5 0).2.2.1 ⟨0, by norm_num⟩
      (by norm_num) (by norm_num),
    (set_digit_frame_effect tFix Digit.FIVE 5 0).2.2.2.1,
    (set_digit_frame_effect tFix Digit.FIVE 5 0).2.2.2.2⟩

theorem secsF_eq_zero {n : ℕ} : secsF n = 0 ↔ n = 0 := by
  simp [secsF]

theorem lifespan_active_update_finished_iff (s c dl now : ℕ) :
    (Lifespan.active s c dl).update now = .finished ↔ dl < now := by
  by_cases h : dl < now <;> simp [Lifespan.update, h]

/-- C2 counterexample: a target with a 5-nanosecond lifespan, activated
at 0 and advanced again exactly at its deadline `now = start + d = 5`,
reports progress 1 but is still Active, not Finished: the code finishes
only on `deadline < now`, strictly. -/
theorem lifespan_not_finished_at_deadline :
    ((ClockTarget.update
      (ClockTarget.update (ClockTarget.mk zeroGrid none (.pending 5)) 0).1 5).1).progress
        = 1 ∧
    ((ClockTarget.update
      (ClockTarget.update (ClockTarget.mk zeroGrid none (.pending 5)) 0).1 5).1).isFinished
        = false := by
  constructor
  · norm_num [ClockTarget.update, Lifespan.update, ClockTarget.progress, secsF]
  · rfl

/-- C2 (amended): a Target created with lifespan `d`, first advanced at
`start`, becomes Active with deadline `start + d`; advanced again at
`now = start + d` it reports progress 1 but `is_finished()` is still
false, because an Active lifespan transitions to Finished exactly when
advanced with `now` strictly greater than its deadline. -/
theorem lifespan_progress_at_deadline (T : Grid) (e : Option ExtraTurns)
    (d start : ℕ) :
    ((ClockTarget.update (ClockTarget.mk T e (.pending d)) start).1).lifespan
        = .active start start (start + d) ∧
    ((ClockTarget.update
      (ClockTarget.update (ClockTarget.mk T e (.pending d)) start).1
        (start + d)).1).progress = 1 ∧
    ((ClockTarget.update
      (ClockTarget.update (ClockTarget.mk T e (.pending d)) start).1
        (start + d)).1).isFinished = false ∧
    (∀ s c dl now : ℕ,
      (Lifespan.active s c dl).update now = .finished ↔ dl < now) := by
  have ht2 : (ClockTarget.update
      (ClockTarget.update (ClockTarget.mk T e (.pending d)) start).1
        (start + d)).1 =
      ClockTarget.mk T none (.active start (start + d) (start + d)) := by
    simp [ClockTarget.update, Lifespan.update]
  refine ⟨rfl, ?_, ?_, lifespan_active_update_finished_iff⟩
  · rw [ht2]
    simp only [ClockTarget.progress]
    have hsub : start + d - start = d := by omega
    rw [hsub]
    by_cases h0 : d = 0
    · subst h0; simp [secsF]
    · rw [if_neg (secsF_eq_zero.not.mpr h0)]
      exact div_self (secsF_eq_zero.not.mpr h0)
  · rw [ht2]; rfl

/-- C3 counterexample: a zero-length Target at the front of the queue is
not retired on the very first tick it receives (it merely becomes
Active), so the queue still holds both targets after that tick and the
next queued Target is blocked within it. -/
theorem zero_lifespan_blocks_first_tick :
    ((Clock.mk zeroGrid
      [ClockTarget.mk zeroGrid none (.pending 0),
       ClockTarget.mk zeroGrid none (.pending 7)]).update 0).targets.length = 2 := rfl

/-- C3 (amended): a zero-length Target reports progress 1 on its very
first advance with no division by zero, but its first Board tick only
activates it (deadline = activation instant) and leaves it at the front,
blocking the rest of the queue for that tick; any later tick with a
strictly greater `now` retires it — commits its grid, pops it, and
continues draining into the remaining queue. -/
theorem zero_lifespan_first_tick_behaviour (G T : Grid) (e : Option ExtraTurns)
    (ts : List ClockTarget) (now now' : ℕ) (h : now < now') :
    ((ClockTarget.update (ClockTarget.mk T e (.pending 0)) now).1).progress = 1 ∧
    (Clock.mk G (ClockTarget.mk T e (.pending 0) :: ts)).update now =
      Clock.mk (G.applyExtra e)
        (ClockTarget.mk T none (.active now now now) :: ts) ∧
    (Clock.mk (G.applyExtra e)
        (ClockTarget.mk T none (.active now now now) :: ts)).update now' =
      (Clock.mk T ts).update now' := by
  refine ⟨?_, ?_, ?_⟩
  · simp [ClockTarget.update, Lifespan.update, ClockTarget.progress, secsF]
  · simp [Clock.update, tickAux, ClockTarget.update, Lifespan.update,
      ClockTarget.isFinished]
  · simp [Clock.update, tickAux, ClockTarget.update, Lifespan.update, h,
      ClockTarget.isFinished]

/-- Witness for C3's amended theorem with ticks at 0 and 1. -/
theorem zero_lifespan_first_tick_behaviour_witness :
    0 < 1 ∧
    (((ClockTarget.update (ClockTarget.mk zeroGrid none (.pending 0)) 0).1).progress = 1 ∧
    (Clock.mk zeroGrid (ClockTarget.mk zeroGrid none (.pending 0) :: [])).update 0 =
      Clock.mk (zeroGrid.applyExtra none)
        (ClockTarget.mk zeroGrid none (.active 0 0 0) :: []) ∧
    (Clock.mk (zeroGrid.applyExtra none)
        (ClockTarget.mk zeroGrid none (.active 0 0 0) :: [])).update 1 =
      (Clock.mk zeroGrid []).update 1) :=
  ⟨by norm_num,
    zero_lifespan_first_tick_behaviour zeroGrid zeroGrid none [] 0 1 (by norm_num)⟩

theorem slotGlyph_setDigit_same (t : ClockTarget) (d : Digit) (p : ℕ) :
    slotGlyph (t.setDigit d p).clocklets p = d := by
  funext k
  have hne : (p % 4) * 2 + 1 ≠ (p % 4) * 2 := by omega
  by_cases h : k.val < 3
  · simp only [slotGlyph, dif_pos h, ClockTarget.setDigit, eq_self_iff_true,
      if_true]
  · simp only [slotGlyph, dif_neg h, ClockTarget.setDigit, if_neg hne,
      eq_self_iff_true, if_true]
    congr 1
    apply Fin.ext
    show 3 + (k.val - 3) = k.val
    omega

theorem slotGlyph_setDigit_other (t : ClockTarget) (d : Digit) (p q : ℕ)
    (hq : q % 4 ≠ p % 4) :
    slotGlyph (t.setDigit d p).clocklets q = slotGlyph t.clocklets q := by
  funext k
  have h1 : (q % 4) * 2 ≠ (p % 4) * 2 := by omega
  have h2 : (q % 4) * 2 ≠ (p % 4) * 2 + 1 := by omega
  have h3 : (q % 4) * 2 + 1 ≠ (p % 4) * 2 := by omega
  have h4 : (q % 4) * 2 + 1 ≠ (p % 4) * 2 + 1 := by omega
  by_cases h : k.val < 3
  · simp only [slotGlyph, dif_pos h, ClockTarget.setDigit, if_neg h1, if_neg h2]
  · simp only [slotGlyph, dif_neg h, ClockTarget.setDigit, if_neg h3, if_neg h4]

theorem fromTime_slot_three (init : Grid) (time : ℕ) (ls : Lifespan) :
    slotGlyph (ClockTarget.fromTime init time ls).clocklets 3 =
      digitFrom ((time / 1000000000 / 60) % 60) := by
  unfold ClockTarget.fromTime
  rw [slotGlyph_setDigit_other _ _ _ _ (by norm_num),
    slotGlyph_setDigit_other _ _ _ _ (by norm_num),
    slotGlyph_setDigit_other _ _ _ _ (by norm_num),
    slotGlyph_setDigit_same]

theorem fromTime_slot_two (init : Grid) (time : ℕ) (ls : Lifespan) :
    slotGlyph (ClockTarget.fromTime init time ls).clocklets 2 =
      digitFrom (((time / 1000000000 / 60) % 60) / 10) := by
  unfold ClockTarget.fromTime
  rw [slotGlyph_setDigit_other _ _ _ _ (by norm_num),
    slotGlyph_setDigit_other _ _ _ _ (by norm_num),
    slotGlyph_setDigit_same]

theorem fromTime_slot_one (init : Grid) (time : ℕ) (ls : Lifespan) :
    slotGlyph (ClockTarget.fromTime init time ls).clocklets 1 =
      digitFrom ((time / 1000000000 / 3600) % 24) := by
  unfold ClockTarget.fromTime
  rw [slotGlyph_setDigit_other _ _ _ _ (by norm_num), slotGlyph_setDigit_same,
    Nat.div_div_eq_div_mul]

theorem fromTime_slot_zero (init : Grid) (time : ℕ) (ls : Lifespan) :
    slotGlyph (ClockTarget.fromTime init time ls).clocklets 0 =
      digitFrom (((time / 1000000000 / 3600) % 24) / 10) := by
  unfold ClockTarget.fromTime
  rw [slotGlyph_setDigit_same, Nat.div_div_eq_div_mul]

/-- C7: `from_time` computes minute `(unix_seconds / 60) % 60` and hour
`(unix_seconds / 3600) % 24` and writes the four glyph slots as
minutes-ones in slot 3, minutes-tens in slot 2, hours-ones in slot 1 and
hours-tens in slot 0 (tens by integer division by 10; `Digit::from`
takes the ones digit modulo 10); in particular at 14:07
(50820 unix seconds) the slots 0..3 read the glyphs of 1, 4, 0, 7. -/
theorem from_time_digit_slots (init : Grid) (time : ℕ) (ls : Lifespan) :
    (slotGlyph (ClockTarget.fromTime init time ls).clocklets 3 =
      digitFrom ((time / 1000000000 / 60) % 60) ∧
    slotGlyph (ClockTarget.fromTime init time ls).clocklets 2 =
      digitFrom (((time / 1000000000 / 60) % 60) / 10) ∧
    slotGlyph (ClockTarget.fromTime init time ls).clocklets 1 =
      digitFrom ((time / 1000000000 / 3600) % 24) ∧
    slotGlyph (ClockTarget.fromTime init time ls).clocklets 0 =
      digitFrom (((time / 1000000000 / 3600) % 24) / 10)) ∧
    (slotGlyph (ClockTarget.fromTime init 50820000000000 ls).clocklets 0 =
      digitFrom 1 ∧
    slotGlyph (ClockTarget.fromTime init 50820000000000 ls).clocklets 1 =
      digitFrom 4 ∧
    slotGlyph (ClockTarget.fromTime init 50820000000000 ls).clocklets 2 =
      digitFrom 0 ∧
    slotGlyph (ClockTarget.fromTime init 50820000000000 ls).clocklets 3 =
      digitFrom 7) := by
  refine ⟨⟨fromTime_slot_three init time ls, fromTime_slot_two init time ls,
    fromTime_slot_one init time ls, fromTime_slot_zero init time ls⟩, ?_, ?_, ?_, ?_⟩
  · rw [fromTime_slot_zero init 50820000000000 ls]
  · rw [fromTime_slot_one init 50820000000000 ls]; rfl
  · rw [fromTime_slot_two init 50820000000000 ls]
  · rw [fromTime_slot_three init 50820000000000 ls]

theorem trigger_unarmed_low (init : Grid) (now : ℕ)
    (h : (now / 1000000000) % 60 < 55) :
    TriggerTime.trigger init false now = (false, none) := by
  simp [TriggerTime.trigger, h]

theorem trigger_unarmed_high (init : Grid) (now : ℕ)
    (h : 55 ≤ (now / 1000000000) % 60) :
    TriggerTime.trigger init false now =
      (true, some (ClockTarget.fromTime init (now + 5 * 1000000000)
        (Lifespan.fromMillis (5 * 1000)))) := by
  have h1 : ¬ (now / 1000000000) % 60 < 55 := by omega
  simp [TriggerTime.trigger, h, h1]

theorem trigger_armed_high (init : Grid) (now : ℕ)
    (h : 55 ≤ (now / 1000000000) % 60) :
    TriggerTime.trigger init true now = (true, none) := by
  have h1 : ¬ (now / 1000000000) % 60 < 55 := by omega
  simp [TriggerTime.trigger, h1]

theorem trigger_armed_low (init : Grid) (now : ℕ)
    (h : (now / 1000000000) % 60 < 55) :
    TriggerTime.trigger init true now = (false, none) := by
  simp [TriggerTime.trigger, h]

theorem triggerRun_armed_high_zero (init : Grid) (ns : List ℕ)
    (h : ∀ x ∈ ns, 55 ≤ (x / 1000000000) % 60) :
    (triggerRun init true ns).1 = true ∧ (triggerRun init true ns).2 = 0 := by
  induction ns with
  | nil => exact ⟨rfl, rfl⟩
  | cons n ns ih =>
      have hn := h n (List.mem_cons_self n ns)
      have ih2 := ih (fun x hx => h x (List.mem_cons_of_mem n hx))
      simp only [triggerRun, trigger_armed_high init n hn]
      exact ⟨ih2.1, by simp [ih2.2]⟩

/-- C8: the 5-second-lead trigger is a two-edge machine on `armed`: an
unarmed poll below second 55 emits nothing and stays unarmed; the first
unarmed poll at second ≥ 55 emits exactly one time-display Target (for
`now + 5 s`, lifespan 5000 ms) and arms; armed polls in seconds 55-59
emit nothing; an armed poll below second 55 disarms without emission;
consequently a run of polls all inside the 55-59 window emits at most
one Target. -/
theorem trigger_time_edges :
    (∀ (init : Grid) (now : ℕ), (now / 1000000000) % 60 < 55 →
      TriggerTime.trigger init false now = (false, none)) ∧
    (∀ (init : Grid) (now : ℕ), 55 ≤ (now / 1000000000) % 60 →
      TriggerTime.trigger init false now =
        (true, some (ClockTarget.fromTime init (now + 5 * 1000000000)
          (Lifespan.fromMillis (5 * 1000))))) ∧
    (∀ (init : Grid) (now : ℕ), 55 ≤ (now / 1000000000) % 60 →
      TriggerTime.trigger init true now = (true, none)) ∧
    (∀ (init : Grid) (now : ℕ), (now / 1000000000) % 60 < 55 →
      TriggerTime.trigger init true now = (false, none)) ∧
    (∀ (init : Grid) (ns : List ℕ) (armed : Bool),
      (∀ x ∈ ns, 55 ≤ (x / 1000000000) % 60) →
      (triggerRun init armed ns).2 ≤ 1) := by
  refine ⟨trigger_unarmed_low, trigger_unarmed_high, trigger_armed_high,
    trigger_armed_low, ?_⟩
  intro init ns armed h
  cases armed with
  | true =>
      have h0 := (triggerRun_armed_high_zero init ns h).2
      omega
  | false =>
      cases ns with
      | nil => exact Nat.zero_le 1
      | cons n ns =>
          have hn := h n (List.mem_cons_self n ns)
          have hrest := triggerRun_armed_high_zero init ns
            (fun x hx => h x (List.mem_cons_of_mem n hx))
          simp only [triggerRun, trigger_unarmed_high init n hn]
          simp [hrest.2]

/-- Witness for C8: polls at unix seconds 54 (no emission), 55 (single
emission), and the armed window run [55 s, 56 s] (at most one). -/
theorem trigger_time_edges_witness :
    ((54000000000 / 1000000000) % 60 < 55 ∧
      TriggerTime.trigger zeroGrid false 54000000000 = (false, none)) ∧
    (55 ≤ (55000000000 / 1000000000) % 60 ∧
      TriggerTime.trigger zeroGrid false 55000000000 =
        (true, some (ClockTarget.fromTime zeroGrid (55000000000 + 5 * 1000000000)
          (Lifespan.fromMillis (5 * 1000))))) ∧
    TriggerTime.trigger zeroGrid true 56000000000 = (true, none) ∧
    TriggerTime.trigger zeroGrid true 2000000000 = (false, none) ∧
    (triggerRun zeroGrid false [55000000000, 56000000000]).2 ≤ 1 :=
  ⟨⟨by norm_num, trigger_time_edges.1 zeroGrid 54000000000 (by norm_num)⟩,
    ⟨by norm_num, trigger_time_edges.2.1 zeroGrid 55000000000 (by norm_num)⟩,
    trigger_time_edges.2.2.1 zeroGrid 56000000000 (by norm_num),
    trigger_time_edges.2.2.2.1 zeroGrid 2000000000 (by norm_num),
    trigger_time_edges.2.2.2.2 zeroGrid [55000000000, 56000000000] false
      (by intro x hx; simp at hx; rcases hx with h | h <;> subst h <;> norm_num)⟩

theorem runFrom_add (nows : ℕ → ℕ) (a : ℕ) :
    ∀ (i : ℕ) (c : Clock) (b : ℕ),
      runFrom nows i c (a + b) = runFrom nows (i + a) (runFrom nows i c a) b := by
  induction a with
  | zero => intro i c b; rw [Nat.zero_add]; rfl
  | succ a ih =>
      intro i c b
      rw [show a + 1 + b = (a + b) + 1 by omega]
      show runFrom nows (i + 1) (c.update (nows i)) (a + b) = _
      rw [ih (i + 1) (c.update (nows i)) b]
      rw [show i + 1 + a = i + (a + 1) by omega]
      rfl

theorem traceFrom_add (nows : ℕ → ℕ) (a : ℕ) :
    ∀ (i : ℕ) (c : Clock) (b : ℕ),
      traceFrom nows i c (a + b) =
        traceFrom nows i c a ++ traceFrom nows (i + a) (runFrom nows i c a) b := by
  induction a with
  | zero => intro i c b; rw [Nat.zero_add]; rfl
  | succ a ih =>
      intro i c b
      rw [show a + 1 + b = (a + b) + 1 by omega]
      show tickRetired (nows i) c.targets ++
          traceFrom nows (i + 1) (c.update (nows i)) (a + b) = _
      rw [ih (i + 1) (c.update (nows i)) b]
      rw [show i + 1 + a = i + (a + 1) by omega]
      rw [← List.append_assoc]
      rfl

theorem update_empty (g : Grid) (now : ℕ) :
    (Clock.mk g []).update now = Clock.mk g [] := rfl

theorem update_cons_pending (G T : Grid) (e : Option ExtraTurns) (d : ℕ)
    (ts : List ClockTarget) (now : ℕ) :
    (Clock.mk G (ClockTarget.mk T e (.pending d) :: ts)).update now =
      Clock.mk (G.applyExtra e)
        (ClockTarget.mk T none (.active now now (now + d)) :: ts) := by
  simp [Clock.update, tickAux, ClockTarget.update, Lifespan.update,
    ClockTarget.isFinished]

theorem retired_cons_pending (T : Grid) (e : Option ExtraTurns) (d : ℕ)
    (ts : List ClockTarget) (now : ℕ) :
    tickRetired now (ClockTarget.mk T e (.pending d) :: ts) = [] := by
  simp [tickRetired, ClockTarget.update, Lifespan.update, ClockTarget.isFinished]

theorem update_cons_stutter (G T : Grid) (s c D : ℕ) (ts : List ClockTarget)
    (now : ℕ) (h : ¬ D < now) :
    (Clock.mk G (ClockTarget.mk T none (.active s c D) :: ts)).update now =
      Clock.mk G (ClockTarget.mk T none (.active s now D) :: ts) := by
  simp [Clock.update, tickAux, ClockTarget.update, Lifespan.update, h,
    ClockTarget.isFinished, Grid.applyExtra]

theorem retired_cons_stutter (T : Grid) (s c D : ℕ) (ts : List ClockTarget)
    (now : ℕ) (h : ¬ D < now) :
    tickRetired now (ClockTarget.mk T none (.active s c D) :: ts) = [] := by
  simp [tickRetired, ClockTarget.update, Lifespan.update, h,
    ClockTarget.isFinished]

theorem update_cons_finish (G T : Grid) (e : Option ExtraTurns) (s c D : ℕ)
    (ts : List ClockTarget) (now : ℕ) (h : D < now) :
    (Clock.mk G (ClockTarget.mk T e (.active s c D) :: ts)).update now =
      (Clock.mk T ts).update now := by
  simp [Clock.update, tickAux, ClockTarget.update, Lifespan.update, h,
    ClockTarget.isFinished]

theorem retired_cons_finish (T : Grid) (e : Option ExtraTurns) (s c D : ℕ)
    (ts : List ClockTarget) (now : ℕ) (h : D < now) :
    tickRetired now (ClockTarget.mk T e (.active s c D) :: ts) =
      ClockTarget.mk T none .finished :: tickRetired now ts := by
  simp [tickRetired, ClockTarget.update, Lifespan.update, h,
    ClockTarget.isFinished]

theorem runFrom_empty (nows : ℕ → ℕ) (g : Grid) :
    ∀ (k i : ℕ), runFrom nows i (Clock.mk g []) k = Clock.mk g [] := by
  intro k
  induction k with
  | zero => intro i; rfl
  | succ k ih => intro i; show runFrom nows (i + 1) _ k = _; rw [update_empty]; exact ih (i + 1)

theorem traceFrom_empty (nows : ℕ → ℕ) (g : Grid) :
    ∀ (k i : ℕ), traceFrom nows i (Clock.mk g []) k = [] := by
  intro k
  induction k with
  | zero => intro i; rfl
  | succ k ih =>
      intro i
      show tickRetired (nows i) [] ++ traceFrom nows (i + 1) ((Clock.mk g []).update (nows i)) k = []
      rw [update_empty]
      rw [ih (i + 1)]
      rfl

theorem runFrom_stutter (nows : ℕ → ℕ) (G T : Grid) (s D : ℕ)
    (ts : List ClockTarget) :
    ∀ (m i c0 : ℕ), (∀ m' < m, ¬ D < nows (i + m')) →
      ∃ c', runFrom nows i
              (Clock.mk G (ClockTarget.mk T none (.active s c0 D) :: ts)) m =
            Clock.mk G (ClockTarget.mk T none (.active s c' D) :: ts) ∧
            traceFrom nows i
              (Clock.mk G (ClockTarget.mk T none (.active s c0 D) :: ts)) m = [] := by
  intro m
  induction m with
  | zero => intro i c0 _; exact ⟨c0, rfl, rfl⟩
  | succ m ih =>
      intro i c0 h
      have h0 : ¬ D < nows i := by
        have := h 0 (Nat.succ_pos m)
        rwa [Nat.add_zero] at this
      have hrest : ∀ m' < m, ¬ D < nows (i + 1 + m') := by
        intro m' hm'
        have := h (m' + 1) (by omega)
        rwa [show i + (m' + 1) = i + 1 + m' by omega] at this
      obtain ⟨c', hc1, hc2⟩ := ih (i + 1) (nows i) hrest
      refine ⟨c', ?_, ?_⟩
      · show runFrom nows (i + 1) (Clock.update _ (nows i)) m = _
        rw [update_cons_stutter G T s c0 D ts (nows i) h0]
        exact hc1
      · show tickRetired (nows i) _ ++
          traceFrom nows (i + 1) (Clock.update _ (nows i)) m = []
        rw [retired_cons_stutter T s c0 D ts (nows i) h0,
          update_cons_stutter G T s c0 D ts (nows i) h0, hc2]
        rfl

theorem strictMono_le_add (nows : ℕ → ℕ) (hm : StrictMono nows) :
    ∀ (i k : ℕ), nows i + k ≤ nows (i + k) := by
  intro i k
  induction k with
  | zero => simp
  | succ k ih =>
      have h : nows (i + k) < nows (i + (k + 1)) := hm (by omega)
      omega

/-- Committed grid after all of `ts` retire, starting from `G`. -/
def lastGrid (G : Grid) : List ClockTarget → Grid
  | [] => G
  | t :: rest => lastGrid t.clocklets rest

theorem lastGrid_eq_getLast :
    ∀ (ts : List ClockTarget) (h : ts ≠ []) (G : Grid),
      lastGrid G ts = (ts.getLast h).clocklets := by
  intro ts
  induction ts with
  | nil => intro h; exact absurd rfl h
  | cons t rest ih =>
      intro h G
      cases rest with
      | nil => rfl
      | cons r rs =>
          show lastGrid t.clocklets (r :: rs) = _
          rw [ih (List.cons_ne_nil r rs) t.clocklets]
          rfl

theorem foldl_pushTarget :
    ∀ (ts : List ClockTarget) (c : Clock),
      List.foldl Clock.pushTarget c ts = Clock.mk c.clocklets (c.targets ++ ts) := by
  intro ts
  induction ts with
  | nil => intro c; rw [List.append_nil]; exact rfl
  | cons t ts ih =>
      intro c
      show List.foldl Clock.pushTarget (c.pushTarget t) ts = _
      rw [ih]
      simp [Clock.pushTarget]

theorem drain_queue (nows : ℕ → ℕ) (hm : StrictMono nows) :
    ∀ (ts : List ClockTarget), (∀ t ∈ ts, ∃ d, t.lifespan = .pending d) →
      ∀ (G : Grid) (i : ℕ), ∃ k,
        runFrom nows i (Clock.mk G ts) k = Clock.mk (lastGrid G ts) [] ∧
        (traceFrom nows i (Clock.mk G ts) k).map ClockTarget.clocklets =
          ts.map ClockTarget.clocklets := by
  intro ts
  induction ts with
  | nil => intro _ G i; exact ⟨0, rfl, rfl⟩
  | cons t rest ih =>
      intro hp G i
      obtain ⟨d, hd⟩ := hp t (List.mem_cons_self t rest)
      obtain ⟨T, e, ls⟩ := t
      simp only at hd
      subst hd
      have hex : ∃ j, nows i + d < nows (i + 1 + j) := by
        refine ⟨d, ?_⟩
        have h1 : nows i < nows (i + 1) := hm (by omega)
        have h2 : nows (i + 1) + d ≤ nows (i + 1 + d) :=
          strictMono_le_add nows hm (i + 1) d
        omega
      have hj : nows i + d < nows (i + 1 + Nat.find hex) := Nat.find_spec hex
      have hmin : ∀ m < Nat.find hex, ¬ nows i + d < nows (i + 1 + m) :=
        fun m hm' => Nat.find_min hex hm'
      obtain ⟨c', hS, hTr⟩ := runFrom_stutter nows (G.applyExtra e) T (nows i)
        (nows i + d) rest (Nat.find hex) (i + 1) (nows i) hmin
      obtain ⟨k', hr1, hr2⟩ :=
        ih (fun u hu => hp u (List.mem_cons_of_mem _ hu)) T (i + 1 + Nat.find hex)
      have hA : runFrom nows i
          (Clock.mk G (ClockTarget.mk T e (.pending d) :: rest))
          (Nat.find hex + 1) =
          Clock.mk (G.applyExtra e)
            (ClockTarget.mk T none (.active (nows i) c' (nows i + d)) :: rest) := by
        show runFrom nows (i + 1)
          ((Clock.mk G (ClockTarget.mk T e (.pending d) :: rest)).update (nows i))
          (Nat.find hex) = _
        rw [update_cons_pending]
        exact hS
      have hB : runFrom nows (i + 1 + Nat.find hex) (Clock.mk T rest) (k' + 1) =
          Clock.mk (lastGrid T rest) [] := by
        rw [runFrom_add nows k' (i + 1 + Nat.find hex) (Clock.mk T rest) 1, hr1]
        rfl
      have hC : (traceFrom nows (i + 1 + Nat.find hex) (Clock.mk T rest)
          (k' + 1)).map ClockTarget.clocklets = rest.map ClockTarget.clocklets := by
        rw [traceFrom_add nows k' (i + 1 + Nat.find hex) (Clock.mk T rest) 1, hr1]
        rw [traceFrom_empty nows (lastGrid T rest) 1 (i + 1 + Nat.find hex + k')]
        rw [List.append_nil]
        exact hr2
      refine ⟨(Nat.find hex + 1) + (k' + 1), ?_, ?_⟩
      · rw [runFrom_add nows (Nat.find hex + 1) i _ (k' + 1), hA]
        rw [show i + (Nat.find hex + 1) = i + 1 + Nat.find hex by omega]
        show runFrom nows (i + 1 + Nat.find hex + 1)
          ((Clock.mk (G.applyExtra e)
            (ClockTarget.mk T none (.active (nows i) c' (nows i + d)) :: rest)).update
              (nows (i + 1 + Nat.find hex))) k' = _
        rw [update_cons_finish _ _ _ _ _ _ _ _ hj]
        exact hB
      · rw [traceFrom_add nows (Nat.find hex + 1) i _ (k' + 1), hA]
        have hT1 : traceFrom nows i
            (Clock.mk G (ClockTarget.mk T e (.pending d) :: rest))
            (Nat.find hex + 1) = [] := by
          show tickRetired (nows i) (ClockTarget.mk T e (.pending d) :: rest) ++
            traceFrom nows (i + 1)
              ((Clock.mk G (ClockTarget.mk T e (.pending d) :: rest)).update (nows i))
              (Nat.find hex) = []
          rw [retired_cons_pending, update_cons_pending, hTr]
          rfl
        rw [hT1, List.nil_append,
          show i + (Nat.find hex + 1) = i + 1 + Nat.find hex by omega]
        show (tickRetired (nows (i + 1 + Nat.find hex))
            (ClockTarget.mk T none (.active (nows i) c' (nows i + d)) :: rest) ++
          traceFrom nows (i + 1 + Nat.find hex + 1)
            ((Clock.mk (G.applyExtra e)
              (ClockTarget.mk T none (.active (nows i) c' (nows i + d)) :: rest)).update
                (nows (i + 1 + Nat.find hex))) k').map ClockTarget.clocklets =
          (ClockTarget.mk T e (.pending d) :: rest).map ClockTarget.clocklets
        rw [retired_cons_finish _ _ _ _ _ _ _ hj,
          update_cons_finish _ _ _ _ _ _ _ _ hj]
        rw [List.cons_append, List.map_cons, List.map_cons]
        congr 1

/-- A second fixture grid, distinct from `zeroGrid`. -/
def gOne : Grid := fun _ _ => Clocklet.fromTurns 1 0

/-- C4: pushing a sequence of freshly created (Pending) Targets onto an
empty queue via `push_target` and ticking with any strictly increasing
`now` schedule retires them in exactly FIFO push order (the trace of
committed grids, in pop order, equals the pushed grids in push order),
eventually leaves the queue empty, and leaves the committed grid equal
to the last pushed Target's grid. -/
theorem queue_drains_fifo (nows : ℕ → ℕ) (hm : StrictMono nows)
    (ts : List ClockTarget) (hp : ∀ t ∈ ts, ∃ d, t.lifespan = .pending d)
    (hne : ts ≠ []) (G : Grid) :
    ∃ k,
      (runFrom nows 0 (List.foldl Clock.pushTarget (Clock.mk G []) ts) k).targets
        = [] ∧
      (runFrom nows 0 (List.foldl Clock.pushTarget (Clock.mk G []) ts) k).clocklets
        = (ts.getLast hne).clocklets ∧
      (traceFrom nows 0 (List.foldl Clock.pushTarget (Clock.mk G []) ts) k).map
        ClockTarget.clocklets = ts.map ClockTarget.clocklets := by
  have hfold : List.foldl Clock.pushTarget (Clock.mk G []) ts = Clock.mk G ts := by
    rw [foldl_pushTarget]
    exact rfl
  obtain ⟨k, h1, h2⟩ := drain_queue nows hm ts hp G 0
  refine ⟨k, ?_, ?_, ?_⟩ <;> rw [hfold]
  · rw [h1]
  · rw [h1]
    exact lastGrid_eq_getLast ts hne G
  · exact h2

/-- Witness for C4: a single zero-length Pending target with grid `gOne`
pushed onto an empty board, ticked with the identity schedule. -/
theorem queue_drains_fifo_witness :
    StrictMono (fun n : ℕ => n) ∧
    (∀ t ∈ [ClockTarget.mk gOne none (Lifespan.pending 0)],
      ∃ d, t.lifespan = Lifespan.pending d) ∧
    [ClockTarget.mk gOne none (Lifespan.pending 0)] ≠ [] ∧
    ∃ k,
      (runFrom (fun n => n) 0 (List.foldl Clock.pushTarget (Clock.mk zeroGrid [])
        [ClockTarget.mk gOne none (Lifespan.pending 0)]) k).targets = [] ∧
      (runFrom (fun n => n) 0 (List.foldl Clock.pushTarget (Clock.mk zeroGrid [])
        [ClockTarget.mk gOne none (Lifespan.pending 0)]) k).clocklets =
        ([ClockTarget.mk gOne none (Lifespan.pending 0)].getLast (by simp)).clocklets ∧
      (traceFrom (fun n => n) 0 (List.foldl Clock.pushTarget (Clock.mk zeroGrid [])
        [ClockTarget.mk gOne none (Lifespan.pending 0)]) k).map
        ClockTarget.clocklets =
        [ClockTarget.mk gOne none (Lifespan.pending 0)].map ClockTarget.clocklets := by
  refine ⟨fun a b h => h, ?_, by simp, ?_⟩
  · intro t ht
    simp only [List.mem_singleton] at ht
    subst ht
    exact ⟨0, rfl⟩
  · exact queue_drains_fifo (fun n => n) (fun a b h => h) _
      (by intro t ht; simp only [List.mem_singleton] at ht; subst ht; exact ⟨0, rfl⟩)
      (by simp) zeroGrid
